import Mathlib

/-!
# Verification of the push-2-talk core against its specification

Shallow embedding of the parts of the push-2-talk repository that the
checked claims concern:

* the binary frame protocol of the streaming ASR provider
  (src/豆包ASR-流式模式.md, `AsrRequestHeader`, `RequestBuilder`,
  `ResponseParser`);
* the dictionary utilities (src/src/utils/dictionaryUtils.ts,
  src/src/utils/builtinDictionary.ts) and the runtime dictionary
  builder (src/src/hooks/useAppServiceController.ts);
* the ASR configuration validation and fallback
  (src/src/utils/hotkey.ts);
* the UI event handlers (src/src/hooks/useTauriEventListeners.ts) and
  the overlay window state with its two timeout effects
  (src/src/windows/OverlayWindow.tsx).

Bytes are modelled as natural numbers (meaningful values are < 256),
byte strings as `List Nat`, JavaScript strings as `List Char` where
character-level operations matter and as `String` otherwise.  External
compression (gzip) and JSON parsing are modelled as abstract function
parameters, since they live in external libraries, not in this
repository.
-/

namespace PushToTalk

/-! ## Big-endian 32-bit integer codecs

The Python demo code uses `struct.pack` / `struct.unpack` with the
formats `>I` (big-endian unsigned 32-bit) and `>i` (big-endian signed
32-bit).  We embed them over `List Nat` byte strings. -/

/-- `struct.pack` with format `>I`: big-endian unsigned 32-bit. -/
def uint32be (n : Nat) : List Nat :=
  [n / 2 ^ 24 % 256, n / 2 ^ 16 % 256, n / 2 ^ 8 % 256, n % 256]

/-- `struct.unpack` with format `>I` applied to the first 4 bytes.
(`struct.unpack` raises on fewer than 4 bytes; the claims only exercise
well-formed frames, so the short case is mapped to 0.) -/
def decodeUint32be : List Nat → Nat
  | b0 :: b1 :: b2 :: b3 :: _ => b0 * 2 ^ 24 + b1 * 2 ^ 16 + b2 * 2 ^ 8 + b3
  | _ => 0

/-- `struct.pack` with format `>i`: big-endian signed 32-bit,
two's complement. -/
def int32be (i : Int) : List Nat :=
  uint32be (i % 2 ^ 32).toNat

/-- `struct.unpack` with format `>i` applied to the first 4 bytes. -/
def decodeInt32be (bs : List Nat) : Int :=
  let n := decodeUint32be bs
  if n < 2 ^ 31 then (n : Int) else (n : Int) - 2 ^ 32

namespace ProtocolVersion

def V1 : Nat := 0b0001

end ProtocolVersion

namespace MessageType

def CLIENT_FULL_REQUEST : Nat := 0b0001

def CLIENT_AUDIO_ONLY_REQUEST : Nat := 0b0010

def SERVER_FULL_RESPONSE : Nat := 0b1001

def SERVER_ERROR_RESPONSE : Nat := 0b1111

end MessageType

namespace MessageTypeSpecificFlags

def NO_SEQUENCE : Nat := 0b0000

def POS_SEQUENCE : Nat := 0b0001

def NEG_SEQUENCE : Nat := 0b0010

def NEG_WITH_SEQUENCE : Nat := 0b0011

end MessageTypeSpecificFlags

namespace SerializationType

def NO_SERIALIZATION : Nat := 0b0000

def JSON : Nat := 0b0001

end SerializationType

namespace CompressionType

def GZIP : Nat := 0b0001

end CompressionType

/-- `AsrRequestHeader`: the four header fields plus the reserved byte. -/
structure AsrRequestHeader where
  message_type : Nat
  message_type_specific_flags : Nat
  serialization_type : Nat
  compression_type : Nat
  reserved_data : List Nat
deriving Repr, DecidableEq

namespace AsrRequestHeader

/-- `AsrRequestHeader()` / `default_header()`. -/
def default_header : AsrRequestHeader :=
  { message_type := MessageType.CLIENT_FULL_REQUEST
    message_type_specific_flags := MessageTypeSpecificFlags.POS_SEQUENCE
    serialization_type := SerializationType.JSON
    compression_type := CompressionType.GZIP
    reserved_data := [0x00] }

def with_message_type (h : AsrRequestHeader) (t : Nat) : AsrRequestHeader :=
  { h with message_type := t }

def with_message_type_specific_flags (h : AsrRequestHeader) (f : Nat) : AsrRequestHeader :=
  { h with message_type_specific_flags := f }

def with_serialization_type (h : AsrRequestHeader) (s : Nat) : AsrRequestHeader :=
  { h with serialization_type := s }

def with_compression_type (h : AsrRequestHeader) (c : Nat) : AsrRequestHeader :=
  { h with compression_type := c }

/-- `AsrRequestHeader.to_bytes`. -/
def to_bytes (h : AsrRequestHeader) : List Nat :=
  [(ProtocolVersion.V1 <<< 4) ||| 1,
   (h.message_type <<< 4) ||| h.message_type_specific_flags,
   (h.serialization_type <<< 4) ||| h.compression_type] ++ h.reserved_data

end AsrRequestHeader

/-- The frame body layout shared by `new_full_client_request` and
`new_audio_only_request`, and mirrored by `parse_response` for server
full-response frames: 4-byte header, big-endian signed 32-bit sequence
number, big-endian unsigned 32-bit size of the compressed payload, then
the compressed payload. -/
def frameBytes (header : AsrRequestHeader) (seq : Int) (compressedPayload : List Nat) :
    List Nat :=
  header.to_bytes ++ int32be seq ++ uint32be compressedPayload.length ++ compressedPayload

namespace RequestBuilder

/-- `RequestBuilder.new_audio_only_request`, with gzip compression as an
abstract parameter. -/
def new_audio_only_request (compress : List Nat → List Nat) (seq : Int)
    (segment : List Nat) (is_last : Bool) : List Nat :=
  let header :=
    if is_last then
      AsrRequestHeader.default_header.with_message_type_specific_flags
        MessageTypeSpecificFlags.NEG_WITH_SEQUENCE
    else
      AsrRequestHeader.default_header.with_message_type_specific_flags
        MessageTypeSpecificFlags.POS_SEQUENCE
  let seq2 : Int := if is_last then -seq else seq
  let header := header.with_message_type MessageType.CLIENT_AUDIO_ONLY_REQUEST
  frameBytes header seq2 (compress segment)

end RequestBuilder

/-- A server full-response frame in the same mirror layout: what the
decoder `parse_response` is written to consume.  Header fields follow
`default_header` (JSON serialization, gzip compression, positive
sequence flag) with the server full-response message type. -/
def serverFullFrame (compress : List Nat → List Nat) (seq : Int) (payload : List Nat) :
    List Nat :=
  frameBytes (AsrRequestHeader.default_header.with_message_type
    MessageType.SERVER_FULL_RESPONSE) seq (compress payload)

/-- `AsrResponse`.  `payload_msg` here holds the byte string handed to
`json.loads` when JSON parsing succeeds (the source stores the parsed
JSON value; the parse itself is abstracted into the `jsonLoads`
parameter below), and `none` when the source would leave it `None`. -/
structure AsrResponse where
  code : Int
  event : Int
  is_last_package : Bool
  payload_sequence : Int
  payload_size : Nat
  payload_msg : Option (List Nat)
deriving Repr, DecidableEq

namespace ResponseParser

/-- `ResponseParser.parse_response`.  `decompress` models
`gzip.decompress` (`none` = the exception the source catches, logging
and returning early); `jsonLoads` models `json.loads` (`none` = the
exception the source catches, leaving `payload_msg = None`). -/
def parse_response (decompress : List Nat → Option (List Nat))
    (jsonLoads : List Nat → Option (List Nat)) (msg : List Nat) : AsrResponse :=
  let header_size := msg.getD 0 0 &&& 0x0f
  let message_type := msg.getD 1 0 >>> 4
  let message_type_specific_flags := msg.getD 1 0 &&& 0x0f
  let serialization_method := msg.getD 2 0 >>> 4
  let message_compression := msg.getD 2 0 &&& 0x0f
  let payload0 := msg.drop (header_size * 4)
  let payload_sequence : Int :=
    if message_type_specific_flags &&& 0x01 ≠ 0 then decodeInt32be (payload0.take 4) else 0
  let payload1 :=
    if message_type_specific_flags &&& 0x01 ≠ 0 then payload0.drop 4 else payload0
  let is_last_package := message_type_specific_flags &&& 0x02 ≠ 0
  let event : Int :=
    if message_type_specific_flags &&& 0x04 ≠ 0 then decodeInt32be (payload1.take 4) else 0
  let payload2 :=
    if message_type_specific_flags &&& 0x04 ≠ 0 then payload1.drop 4 else payload1
  let code : Int :=
    if message_type = MessageType.SERVER_FULL_RESPONSE then 0
    else if message_type = MessageType.SERVER_ERROR_RESPONSE then
      decodeInt32be (payload2.take 4)
    else 0
  let payload_size : Nat :=
    if message_type = MessageType.SERVER_FULL_RESPONSE then decodeUint32be (payload2.take 4)
    else if message_type = MessageType.SERVER_ERROR_RESPONSE then
      decodeUint32be ((payload2.drop 4).take 4)
    else 0
  let payload3 :=
    if message_type = MessageType.SERVER_FULL_RESPONSE then payload2.drop 4
    else if message_type = MessageType.SERVER_ERROR_RESPONSE then payload2.drop 8
    else payload2
  if payload3 = [] then
    { code := code, event := event, is_last_package := is_last_package,
      payload_sequence := payload_sequence, payload_size := payload_size,
      payload_msg := none }
  else
    match (if message_compression = CompressionType.GZIP then decompress payload3
           else some payload3) with
    | none =>
      { code := code, event := event, is_last_package := is_last_package,
        payload_sequence := payload_sequence, payload_size := payload_size,
        payload_msg := none }
    | some payload4 =>
      { code := code, event := event, is_last_package := is_last_package,
        payload_sequence := payload_sequence, payload_size := payload_size,
        payload_msg :=
          if serialization_method = SerializationType.JSON then jsonLoads payload4
          else none }

end ResponseParser

/-- A server full-response frame whose compression nibble is `2`:
neither `0b0000` (no compression) nor `0b0001` (gzip), hence an
unsupported compression flag.  Header bytes: version 1 / header size 1,
message type `SERVER_FULL_RESPONSE` with flags `NO_SEQUENCE`, JSON
serialization with compression `2`; then payload size 3 and payload
bytes `[1, 2, 3]` (not valid JSON, so `json.loads` raises and the
source catches it, leaving `payload_msg = None`). -/
def unsupportedCompressionFrame : List Nat := [17, 144, 18, 0, 0, 0, 0, 3, 1, 2, 3]

/-! ## Dictionary utilities (src/src/utils/dictionaryUtils.ts) -/

/-- JavaScript strings at the character level (split/join operations). -/
abbrev JsString := List Char

/-- `String.prototype.split` with a single-character separator:
`"a|b".split("|") = ["a", "b"]` and `"".split("|") = [""]`. -/
def splitOnChar (sep : Char) : JsString → List JsString
  | [] => [[]]
  | c :: rest =>
    if c = sep then [] :: splitOnChar sep rest
    else
      match splitOnChar sep rest with
      | [] => [[c]]
      | r :: rs => (c :: r) :: rs

/-- The `source` field of a dictionary entry: `"manual" | "auto"`. -/
inductive EntrySource
  | manual
  | auto
deriving Repr, DecidableEq

/-- `DictionaryEntry` (src/unnamed/part_008). -/
structure DictionaryEntry where
  id : JsString
  word : JsString
  source : EntrySource
  added_at : Nat
  frequency : Nat
  last_used_at : Option Nat
deriving Repr, DecidableEq

/-- `parseEntry`.  `generateDictionaryId()` and `Date.now()` are
nondeterministic environment reads, passed in as `genId` and `now`. -/
def parseEntry (genId : JsString) (now : Nat) (entry : JsString) : DictionaryEntry :=
  let parts := splitOnChar '|' entry
  { id := genId
    word := parts.headD []
    source := if parts.getD 1 [] = "auto".toList then .auto else .manual
    added_at := now / 1000
    frequency := 0
    last_used_at := none }

/-- `entriesToWords`. -/
def entriesToWords (entries : List DictionaryEntry) : List JsString :=
  entries.map (·.word)

/-- `entriesToStorageFormat`: `"word"` for manual entries,
`"word|auto"` for auto entries. -/
def entriesToStorageFormat (entries : List DictionaryEntry) : List JsString :=
  entries.map (fun e =>
    if e.source = .auto then e.word ++ ('|' :: "auto".toList) else e.word)

/-! ## Builtin dictionary (src/src/utils/builtinDictionary.ts) and the
runtime dictionary (src/src/hooks/useAppServiceController.ts)

The module-level snapshot `builtinDictionaryMap` is passed around
explicitly as a list of domains (`snapshot`). -/

/-- `BuiltinDictionaryDomain`. -/
structure BuiltinDictionaryDomain where
  name : JsString
  words : List JsString
deriving Repr, DecidableEq

/-- Lookup in the `Map` built by `createDomainMap`: with duplicate names
the later entry overwrites the earlier one, as in a JavaScript `Map`. -/
def lookupDomain (snapshot : List BuiltinDictionaryDomain) (name : JsString) :
    Option BuiltinDictionaryDomain :=
  snapshot.foldl (fun acc d => if d.name = name then some d else acc) none

/-- One step of the `seen`-set / result-list loops used by
`getBuiltinWordsForDomains` and `buildRuntimeDictionary`: skip the word
if already seen, otherwise record it and push it. -/
def pushNew (st : List JsString × List JsString) (word : JsString) :
    List JsString × List JsString :=
  if word ∈ st.1 then st else (word :: st.1, st.2 ++ [word])

/-- `getBuiltinWordsForDomains`. -/
def getBuiltinWordsForDomains (snapshot : List BuiltinDictionaryDomain)
    (domains : List JsString) : List JsString :=
  (domains.foldl (fun st domain =>
    match lookupDomain snapshot domain with
    | none => st
    | some entry => entry.words.foldl pushNew st) ([], [])).2

/-- `buildRuntimeDictionary`. -/
def buildRuntimeDictionary (snapshot : List BuiltinDictionaryDomain)
    (dictionaryEntries : List DictionaryEntry) (builtinDomains : List JsString) :
    List JsString :=
  let userWords := entriesToWords dictionaryEntries
  let builtinWords := getBuiltinWordsForDomains snapshot builtinDomains
  if builtinWords.length = 0 then userWords
  else
    let st := userWords.foldl pushNew ([], [])
    let st := builtinWords.foldl pushNew st
    st.2

/-- First-occurrence deduplication, stated independently of the fold
loops: keep each word at its first occurrence. -/
def firstDedup : List JsString → List JsString
  | [] => []
  | w :: ws => w :: firstDedup (ws.filter (fun x => x ≠ w))
termination_by l => l.length
decreasing_by
  simp only [List.length_cons]
  exact Nat.lt_succ_of_le (List.length_filter_le _ _)

/-- Helper closed form for the `pushNew` loops: the words of `ws` not in
`seen`, first occurrences only. -/
def dedupNew (seen : List JsString) : List JsString → List JsString
  | [] => []
  | w :: ws => if w ∈ seen then dedupNew seen ws else w :: dedupNew (w :: seen) ws

/-- Two dictionary entries carrying the same word (the entry list does
not forbid this; entries arrive from config strings via `parseEntry`
without deduplication). -/
def dupEntryA : DictionaryEntry :=
  { id := "a1".toList, word := "词".toList, source := .manual,
    added_at := 0, frequency := 0, last_used_at := none }

def dupEntryB : DictionaryEntry :=
  { id := "a2".toList, word := "词".toList, source := .auto,
    added_at := 0, frequency := 0, last_used_at := none }

/-- A concrete builtin-dictionary snapshot (for witnesses). -/
def sampleSnapshot : List BuiltinDictionaryDomain :=
  [{ name := ['d'], words := [['x'], "词".toList] }]

/-! ## ASR configuration (src/src/utils/hotkey.ts, types from the
repository's `src/types.ts` as used by its tests in src/unnamed/part_009) -/

/-- `AsrProvider`. -/
inductive AsrProvider
  | qwen
  | doubao
  | doubao_ime
  | siliconflow
deriving Repr, DecidableEq

/-- `String.prototype.trim`: strip leading and trailing whitespace. -/
def jsTrim (s : JsString) : JsString :=
  ((s.dropWhile Char.isWhitespace).reverse.dropWhile Char.isWhitespace).reverse

/-- `AsrCredentials` (string fields at character level, since
`isAsrConfigValid` inspects them through `trim`). -/
structure AsrCredentials where
  qwen_api_key : JsString
  sensevoice_api_key : JsString
  doubao_app_id : JsString
  doubao_access_token : JsString
  doubao_ime_device_id : JsString
  doubao_ime_token : JsString
  doubao_ime_cdid : JsString
deriving Repr, DecidableEq

/-- `AsrSelection`. -/
structure AsrSelection where
  active_provider : AsrProvider
  enable_fallback : Bool
  fallback_provider : Option AsrProvider
deriving Repr, DecidableEq

/-- `AsrConfig`. -/
structure AsrConfig where
  credentials : AsrCredentials
  selection : AsrSelection
  language_mode : String
deriving Repr, DecidableEq

/-- `FALLBACK_ASR_PROVIDER` from src/constants.ts, which is not under
src/; its value is pinned by the repository's own test
(src/unnamed/part_009): `assert.equal(FALLBACK_ASR_PROVIDER, "doubao_ime")`. -/
def FALLBACK_ASR_PROVIDER : AsrProvider := .doubao_ime

/-- `isAsrConfigValid`. -/
def isAsrConfigValid (config : AsrConfig) : Bool :=
  match config.selection.active_provider with
  | .qwen => jsTrim config.credentials.qwen_api_key != []
  | .doubao =>
      (jsTrim config.credentials.doubao_app_id != []) &&
      (jsTrim config.credentials.doubao_access_token != [])
  | .doubao_ime => true
  | .siliconflow => jsTrim config.credentials.sensevoice_api_key != []

/-- Result record of `normalizeAsrConfigWithFallback`. -/
structure NormalizeResult where
  config : AsrConfig
  didFallback : Bool
deriving Repr, DecidableEq

/-- `normalizeAsrConfigWithFallback`. -/
def normalizeAsrConfigWithFallback (config : AsrConfig) : NormalizeResult :=
  if isAsrConfigValid config then { config := config, didFallback := false }
  else
    let fallbackConfig : AsrConfig :=
      { config with
        selection := { config.selection with active_provider := FALLBACK_ASR_PROVIDER } }
    if isAsrConfigValid fallbackConfig then { config := fallbackConfig, didFallback := true }
    else { config := config, didFallback := false }

/-- A valid qwen configuration (for witnesses). -/
def sampleValidConfig : AsrConfig :=
  { credentials :=
      { qwen_api_key := "sk-valid".toList, sensevoice_api_key := [], doubao_app_id := [],
        doubao_access_token := [], doubao_ime_device_id := [], doubao_ime_token := [],
        doubao_ime_cdid := [] }
    selection :=
      { active_provider := .qwen, enable_fallback := false, fallback_provider := none }
    language_mode := "auto" }

/-- A qwen configuration with a blank key, hence invalid (for witnesses). -/
def sampleInvalidConfig : AsrConfig :=
  { sampleValidConfig with
    credentials := { sampleValidConfig.credentials with qwen_api_key := [' '] } }

/-! ## Frontend event handling

`useTauriEventListeners` (src/src/hooks/useTauriEventListeners.ts)
drives the main-window state; `OverlayWindow`
(src/src/windows/OverlayWindow.tsx) drives the overlay state and owns
the two `setTimeout` effects (15 s transcription watchdog, 60 s
locked-mode auto-cancel). -/

/-- `AppStatus` (src/unnamed/part_008). -/
inductive AppStatus
  | idle
  | running
  | recording
  | transcribing
  | polishing
  | assistant_processing
deriving Repr, DecidableEq

/-- `TranscriptionResult` (src/unnamed/part_008, lines 138-146). -/
structure TranscriptionResult where
  text : String
  original_text : Option String
  asr_time_ms : Int
  llm_time_ms : Option Int
  total_time_ms : Int
  mode : Option String
  inserted : Option Bool
deriving Repr, DecidableEq

/-- The field names of the `TranscriptionResult` interface, in source
order (src/unnamed/part_008, lines 138-146). -/
def transcriptionResultFields : List String :=
  ["text", "original_text", "asr_time_ms", "llm_time_ms", "total_time_ms",
   "mode", "inserted"]

/-- `HistoryRecord` (src/unnamed/part_008). -/
structure HistoryRecord where
  id : String
  timestamp : Int
  originalText : String
  polishedText : Option String
  presetName : Option String
  mode : Option String
  asrTimeMs : Int
  llmTimeMs : Option Int
  totalTimeMs : Int
  success : Bool
  errorMessage : Option String
deriving Repr, DecidableEq

/-- JavaScript `x || null` on a nullable string: `null` and the empty
string (both falsy) become `null`. -/
def jsOrNull : Option String → Option String
  | none => none
  | some v => if v = "" then none else some v

/-- `LlmPreset` (src/unnamed/part_008). -/
structure LlmPreset where
  id : String
  name : String
  system_prompt : String
deriving Repr, DecidableEq

/-- The part of the llm configuration the `transcription_complete`
handler reads (`llmConfig?.presets`, `llmConfig.active_preset_id`). -/
structure LlmConfigLite where
  presets : List LlmPreset
  active_preset_id : String
deriving Repr, DecidableEq

/-- The environment of one `useTauriEventListeners` event callback: the
refs and flags it reads, `MAX_HISTORY` (defined in src/constants.ts,
not under src/, so kept abstract), and the nondeterministic
`nanoid(8)` / `Date.now()` reads. -/
structure ListenerCtx where
  llmConfig : Option LlmConfigLite
  enablePostProcess : Bool
  enableDictionaryEnhancement : Bool
  maxHistory : Nat
  newId : String
  now : Int
deriving Repr, DecidableEq

/-- The main-window state owned by the `useState` setters the listeners
call. -/
structure ListenerState where
  status : AppStatus
  error : Option String
  transcript : String
  originalTranscript : Option String
  currentMode : Option String
  asrTime : Option Int
  llmTime : Option Int
  totalTime : Option Int
  activePresetName : Option String
  history : List HistoryRecord
deriving Repr, DecidableEq

/-- The backend events the two components listen for.  (The
`config_updated` and window-close events touch neither the status nor
the error/history fields and are outside the model.) -/
inductive TauriEvent
  | recording_started
  | recording_locked
  | recording_stopped
  | transcribing
  | post_processing (mode : String)
  | transcription_complete (result : TranscriptionResult)
  | error (message : String)
  | transcription_cancelled
  | polishing_failed (message : String)
deriving Repr, DecidableEq

/-- The `presetName` computation of the `transcription_complete`
handler (src/src/hooks/useTauriEventListeners.ts, lines 184-189). -/
def presetNameFor (ctx : ListenerCtx) (result : TranscriptionResult) : Option String :=
  let hasPolishing := (jsOrNull result.original_text).isSome
  let mode := jsOrNull result.mode
  if hasPolishing ∧ mode ≠ some "assistant" then
    if ctx.enablePostProcess then
      match ctx.llmConfig with
      | none => none
      | some cfg =>
        match cfg.presets.find? (fun p => p.id == cfg.active_preset_id) with
        | none => none
        | some p => if p.name = "" then none else some p.name
    else if ctx.enableDictionaryEnhancement then some "词库增强"
    else some "文本规范化"
  else none

/-- The event handlers registered by `useTauriEventListeners`
(src/src/hooks/useTauriEventListeners.ts, lines 139-297), as a step
function on the main-window state. -/
def listenerStep (ctx : ListenerCtx) (s : ListenerState) : TauriEvent → ListenerState
  | .recording_started => { s with status := .recording, error := none }
  | .recording_locked => s
  | .recording_stopped => { s with status := .transcribing }
  | .transcribing => { s with status := .transcribing }
  | .post_processing mode =>
      if mode = "polishing" then { s with status := .polishing }
      else if mode = "assistant" then { s with status := .assistant_processing }
      else s
  | .transcription_complete result =>
      let origNull := jsOrNull result.original_text
      let modeNull := jsOrNull result.mode
      let hasPolishing := origNull.isSome
      let presetName := presetNameFor ctx result
      let record : HistoryRecord :=
        { id := ctx.newId
          timestamp := ctx.now
          originalText := match origNull with | some v => v | none => result.text
          polishedText := if hasPolishing then some result.text else none
          presetName := presetName
          mode := modeNull
          asrTimeMs := result.asr_time_ms
          llmTimeMs := result.llm_time_ms
          totalTimeMs := result.total_time_ms
          success := true
          errorMessage := none }
      { s with
        transcript := result.text
        originalTranscript := origNull
        currentMode := modeNull
        asrTime := some result.asr_time_ms
        llmTime := result.llm_time_ms
        totalTime := some result.total_time_ms
        status := .running
        activePresetName := presetName
        history := (record :: s.history).take ctx.maxHistory }
  | .error errMsg =>
      let record : HistoryRecord :=
        { id := ctx.newId
          timestamp := ctx.now
          originalText := ""
          polishedText := none
          presetName := none
          mode := none
          asrTimeMs := 0
          llmTimeMs := none
          totalTimeMs := 0
          success := false
          errorMessage := some errMsg }
      { s with
        error := some errMsg
        status := .running
        history := (record :: s.history).take ctx.maxHistory }
  | .transcription_cancelled => { s with status := .running, error := none }
  | .polishing_failed _ => s

/-- Running the listeners over a sequence of events. -/
def listenerRun (ctx : ListenerCtx) (s : ListenerState) (evs : List TauriEvent) :
    ListenerState :=
  evs.foldl (listenerStep ctx) s

/-! ## Overlay window (src/src/windows/OverlayWindow.tsx)

The overlay component keeps `status`, `isLocked`, `isSubmitting`, plus
two `setTimeout` effects: a 15000 ms watchdog keyed on
`status === "transcribing"` and a 60000 ms auto-cancel keyed on
`isLocked && !isSubmitting`.  Each effect is modelled as an optional
countdown (milliseconds remaining): re-armed when its dependencies
change to the armed configuration, kept when they are unchanged,
cleared otherwise — exactly the React effect/cleanup semantics. -/

/-- `OverlayStatus`. -/
inductive OverlayStatus
  | recording
  | transcribing
deriving Repr, DecidableEq

/-- The overlay's `useState` fields. -/
structure OverlayCore where
  status : OverlayStatus
  isLocked : Bool
  isSubmitting : Bool
deriving Repr, DecidableEq

/-- The backend commands the overlay invokes. -/
inductive OverlayCmd
  | hide_overlay
  | finish_locked_recording
  | cancel_locked_recording
deriving Repr, DecidableEq

/-- Overlay state: core fields plus the two timer effects. -/
structure OverlayState where
  core : OverlayCore
  transcribeTimer : Option Nat
  lockTimer : Option Nat
deriving Repr, DecidableEq

/-- Recompute the two timeout effects after a state update, following
the React dependency arrays `[status]` (15 s watchdog) and
`[isLocked, isSubmitting]` (60 s auto-cancel). -/
def rederiveTimers (old : OverlayState) (newCore : OverlayCore) : OverlayState :=
  { core := newCore
    transcribeTimer :=
      if newCore.status = .transcribing then
        if old.core.status = .transcribing then old.transcribeTimer else some 15000
      else none
    lockTimer :=
      if newCore.isLocked && !newCore.isSubmitting then
        if old.core.isLocked && !old.core.isSubmitting then old.lockTimer else some 60000
      else none }

/-- The overlay's event listeners (src/src/windows/OverlayWindow.tsx,
lines 248-284) acting on the core fields. -/
def overlayEventCore (c : OverlayCore) : TauriEvent → OverlayCore
  | .recording_started => { status := .recording, isLocked := false, isSubmitting := false }
  | .recording_locked => { c with isLocked := true, isSubmitting := false }
  | .recording_stopped => { c with status := .transcribing }
  | .transcribing => { c with status := .transcribing }
  | .transcription_complete _ =>
      { status := .recording, isLocked := false, isSubmitting := false }
  | .error _ => { status := .recording, isLocked := false, isSubmitting := false }
  | .transcription_cancelled =>
      { status := .recording, isLocked := false, isSubmitting := false }
  | _ => c

/-- One overlay event: run the handler, then recompute the effects. -/
def overlayStepEvent (s : OverlayState) (e : TauriEvent) : OverlayState :=
  rederiveTimers s (overlayEventCore s.core e)

/-- The `handleFinish` button handler. -/
def overlayFinishClick (s : OverlayState) : OverlayState × List OverlayCmd :=
  if s.core.isSubmitting then (s, [])
  else (rederiveTimers s { s.core with isSubmitting := true }, [.finish_locked_recording])

/-- The `handleCancel` button handler. -/
def overlayCancelClick (s : OverlayState) : OverlayState × List OverlayCmd :=
  if s.core.isSubmitting then (s, [])
  else (rederiveTimers s { s.core with isSubmitting := true }, [.cancel_locked_recording])

/-- One millisecond of time passing.  A timer reaching zero runs its
timeout callback: the 15 s watchdog invokes `hide_overlay` and resets
the core (lines 295-310); the 60 s auto-cancel sets `isSubmitting` and
invokes `cancel_locked_recording` (lines 312-325).  When both would
fire in the same millisecond (never the case in the claims' traces) the
watchdog runs first. -/
def overlayTick (s : OverlayState) : OverlayState × List OverlayCmd :=
  let fired1 :=
    match s.transcribeTimer with
    | some r =>
      if r ≤ 1 then
        (rederiveTimers s { status := .recording, isLocked := false, isSubmitting := false },
         [OverlayCmd.hide_overlay])
      else ({ s with transcribeTimer := some (r - 1) }, ([] : List OverlayCmd))
    | none => (s, [])
  let s1 := fired1.1
  let fired2 :=
    match s1.lockTimer with
    | some r =>
      if r ≤ 1 then
        (rederiveTimers s1 { s1.core with isSubmitting := true },
         [OverlayCmd.cancel_locked_recording])
      else ({ s1 with lockTimer := some (r - 1) }, ([] : List OverlayCmd))
    | none => (s1, [])
  (fired2.1, fired1.2 ++ fired2.2)

/-- `n` milliseconds of time passing, collecting the invoked commands. -/
def overlayRunTicks : Nat → OverlayState → OverlayState × List OverlayCmd
  | 0, s => (s, [])
  | n + 1, s =>
    let t := overlayTick s
    let rest := overlayRunTicks n t.1
    (rest.1, t.2 ++ rest.2)

/-- The overlay state while locked and waiting, `r` ms before the
auto-cancel fires. -/
def lockedWaitState (r : Nat) : OverlayState :=
  { core := { status := .recording, isLocked := true, isSubmitting := false }
    transcribeTimer := none
    lockTimer := some r }

/-- The overlay state right after the auto-cancel fired. -/
def lockedFiredState : OverlayState :=
  { core := { status := .recording, isLocked := true, isSubmitting := true }
    transcribeTimer := none
    lockTimer := none }

/-- The overlay state while transcribing, `r` ms before the watchdog
fires.  `lk`/`sub` are the untouched `isLocked`/`isSubmitting` flags
and `lockRemaining` the 60 s auto-cancel countdown, when one is armed:
a locked session that enters transcribing keeps its live lock timer. -/
def transcribingWaitState (lk sub : Bool) (r : Nat) (lockRemaining : Option Nat) :
    OverlayState :=
  { core := { status := .transcribing, isLocked := lk, isSubmitting := sub }
    transcribeTimer := some r
    lockTimer := lockRemaining }

/-- The overlay baseline: not transcribing, not locked, no timers. -/
def overlayBaseline : OverlayState :=
  { core := { status := .recording, isLocked := false, isSubmitting := false }
    transcribeTimer := none
    lockTimer := none }

/-- A concrete listener context (for witnesses). -/
def sampleCtx : ListenerCtx :=
  { llmConfig := none, enablePostProcess := false, enableDictionaryEnhancement := true,
    maxHistory := 50, newId := "id123", now := 1700000000 }

/-- The initial main-window state (for witnesses). -/
def initialListenerState : ListenerState :=
  { status := .idle, error := none, transcript := "", originalTranscript := none,
    currentMode := none, asrTime := none, llmTime := none, totalTime := none,
    activePresetName := none, history := [] }

/-! ## Spec-modelled backend state machine

Modelled from the spec: the backend `RecordingStateMachine` lives in
the Tauri Rust backend (src-tauri), which is not included under src/.
From §4.5 and §7 of the spec: states `Idle → Recording → (Locked)? →
Transcribing → Idle`; press in Idle starts recording; release while
recording moves to transcribing; a press while a session is active is
ignored; "the state machine treats any unrecovered failure as a
transition to `Idle` plus an `error` event". -/

inductive SmState
  | Idle
  | Recording
  | Locked
  | Transcribing
deriving Repr, DecidableEq

inductive SmInput
  | press
  | release
  | togglePress
  | finish
  | cancel
  | complete (result : TranscriptionResult)
  | failure (message : String)
deriving Repr, DecidableEq

/-- Modelled from the spec: one transition of the backend state
machine, returning the new state and the events emitted to the UI. -/
def smStep : SmState → SmInput → SmState × List TauriEvent
  | _, .failure msg => (.Idle, [.error msg])
  | .Idle, .press => (.Recording, [.recording_started])
  | .Recording, .release => (.Transcribing, [.recording_stopped, .transcribing])
  | .Recording, .togglePress => (.Locked, [.recording_locked])
  | .Locked, .togglePress => (.Transcribing, [.recording_stopped, .transcribing])
  | .Locked, .finish => (.Transcribing, [.recording_stopped, .transcribing])
  | .Locked, .cancel => (.Idle, [.transcription_cancelled])
  | .Transcribing, .complete result => (.Idle, [.transcription_complete result])
  | s, _ => (s, [])

/-! ## Theorems: supporting lemmas -/

theorem uint32be_length (n : Nat) : (uint32be n).length = 4 := rfl

theorem int32be_length (i : Int) : (int32be i).length = 4 := rfl

theorem decodeUint32be_uint32be (n : Nat) (h : n < 2 ^ 32) :
    decodeUint32be (uint32be n) = n := by
  simp only [uint32be, decodeUint32be]
  omega

theorem decodeInt32be_int32be (i : Int) (h1 : -(2 ^ 31) ≤ i) (h2 : i < 2 ^ 31) :
    decodeInt32be (int32be i) = i := by
  have hmod : (0 : Int) ≤ i % 2 ^ 32 := Int.emod_nonneg i (by norm_num)
  have hlt : i % 2 ^ 32 < 2 ^ 32 := Int.emod_lt_of_pos i (by norm_num)
  have htn : ((i % 2 ^ 32).toNat : Int) = i % 2 ^ 32 := Int.toNat_of_nonneg hmod
  rw [decodeInt32be, int32be, decodeUint32be_uint32be _ (by omega)]
  by_cases hc : (i % 2 ^ 32).toNat < 2 ^ 31
  · simp only [hc, if_true]
    omega
  · simp only [hc, if_false]
    omega

/-! ## Binary frame protocol (src/豆包ASR-流式模式.md)

Constants, header builder, request builders and response parser, embedded
from the protocol document's reference implementation.  Gzip compression
and JSON parsing live in external libraries, so they enter as abstract
function parameters; decompression and JSON parsing may fail, which the
source catches (logging and returning with `payload_msg = None`). -/

theorem splitOnChar_not_mem (sep : Char) (w : JsString) (h : sep ∉ w) :
    splitOnChar sep w = [w] := by
  induction w with
  | nil => rfl
  | cons c rest ih =>
    rw [List.mem_cons, not_or] at h
    obtain ⟨h1, h2⟩ := h
    have hc : ¬ c = sep := fun he => h1 he.symm
    simp only [splitOnChar, if_neg hc, ih h2]

theorem splitOnChar_append (sep : Char) (w t : JsString) (h : sep ∉ w) :
    splitOnChar sep (w ++ sep :: t) = w :: splitOnChar sep t := by
  induction w with
  | nil => simp [splitOnChar]
  | cons c rest ih =>
    rw [List.mem_cons, not_or] at h
    obtain ⟨h1, h2⟩ := h
    have hc : ¬ c = sep := fun he => h1 he.symm
    simp only [List.cons_append, List.append_eq, splitOnChar, if_neg hc, ih h2]

theorem foldl_pushNew_snd (ws : List JsString) (st : List JsString × List JsString) :
    (ws.foldl pushNew st).2 = st.2 ++ dedupNew st.1 ws := by
  induction ws generalizing st with
  | nil => simp [dedupNew]
  | cons w ws ih =>
    rcases st with ⟨seen, acc⟩
    simp only [List.foldl_cons, pushNew, dedupNew]
    by_cases hw : w ∈ seen
    · rw [if_pos hw, if_pos hw, ih]
    · rw [if_neg hw, if_neg hw, ih]
      simp

theorem foldl_pushNew_fst (ws : List JsString) (st : List JsString × List JsString)
    (x : JsString) : x ∈ (ws.foldl pushNew st).1 ↔ x ∈ st.1 ∨ x ∈ ws := by
  induction ws generalizing st with
  | nil => simp
  | cons w ws ih =>
    rcases st with ⟨seen, acc⟩
    simp only [List.foldl_cons, pushNew]
    by_cases hw : w ∈ seen
    · rw [if_pos hw, ih]
      simp only [List.mem_cons]
      constructor
      · rintro (h | h)
        · exact Or.inl h
        · exact Or.inr (Or.inr h)
      · rintro (h | h | h)
        · exact Or.inl h
        · exact Or.inl (h ▸ hw)
        · exact Or.inr h
    · rw [if_neg hw, ih]
      simp only [List.mem_cons]
      tauto

theorem foldl_pushNew_inv (ws : List JsString) (st : List JsString × List JsString)
    (h1 : st.2.Nodup) (h2 : ∀ x ∈ st.2, x ∈ st.1) :
    (ws.foldl pushNew st).2.Nodup ∧ ∀ x ∈ (ws.foldl pushNew st).2, x ∈ (ws.foldl pushNew st).1 := by
  induction ws generalizing st with
  | nil => exact ⟨h1, h2⟩
  | cons w ws ih =>
    rcases st with ⟨seen, acc⟩
    simp only [List.foldl_cons, pushNew]
    by_cases hw : w ∈ seen
    · rw [if_pos hw]
      exact ih _ h1 h2
    · rw [if_neg hw]
      apply ih
      · refine List.Nodup.append h1 (List.nodup_singleton w) ?_
        intro a ha hb
        simp only [List.mem_singleton] at hb
        subst hb
        exact hw (h2 _ ha)
      · intro x hx
        rcases List.mem_append.mp hx with hx | hx
        · exact List.mem_cons_of_mem _ (h2 x hx)
        · simp only [List.mem_singleton] at hx
          subst hx
          exact List.mem_cons_self _ _

theorem foldl_domains_inv (snapshot : List BuiltinDictionaryDomain)
    (domains : List JsString) (st : List JsString × List JsString)
    (h1 : st.2.Nodup) (h2 : ∀ x ∈ st.2, x ∈ st.1) :
    (domains.foldl (fun st domain =>
      match lookupDomain snapshot domain with
      | none => st
      | some entry => entry.words.foldl pushNew st) st).2.Nodup := by
  induction domains generalizing st with
  | nil => exact h1
  | cons d ds ih =>
    simp only [List.foldl_cons]
    cases hl : lookupDomain snapshot d with
    | none => exact ih st h1 h2
    | some entry =>
      obtain ⟨n1, n2⟩ := foldl_pushNew_inv entry.words st h1 h2
      exact ih _ n1 n2

theorem getBuiltinWordsForDomains_nodup (snapshot : List BuiltinDictionaryDomain)
    (domains : List JsString) : (getBuiltinWordsForDomains snapshot domains).Nodup := by
  unfold getBuiltinWordsForDomains
  exact foldl_domains_inv snapshot domains ([], []) List.nodup_nil (by simp)

theorem dedupNew_eq_filter (b : List JsString) (h : b.Nodup) (seen user : List JsString)
    (hmem : ∀ x ∈ b, (x ∈ seen ↔ x ∈ user)) :
    dedupNew seen b = b.filter (fun w => decide (w ∉ user)) := by
  induction b generalizing seen with
  | nil => rfl
  | cons w ws ih =>
    rw [List.nodup_cons] at h
    obtain ⟨hw, hws⟩ := h
    simp only [dedupNew, List.filter]
    by_cases hwu : w ∈ user
    · rw [if_pos ((hmem w (List.mem_cons_self w ws)).mpr hwu)]
      have hd : decide (w ∉ user) = false := by simp [hwu]
      rw [hd]
      exact ih hws seen (fun x hx => hmem x (List.mem_cons_of_mem _ hx))
    · rw [if_neg (fun hc => hwu ((hmem w (List.mem_cons_self w ws)).mp hc))]
      have hd : decide (w ∉ user) = true := by simp [hwu]
      rw [hd]
      congr 1
      apply ih hws
      intro x hx
      rw [List.mem_cons]
      constructor
      · rintro (rfl | hxs)
        · exact absurd hx hw
        · exact (hmem x (List.mem_cons_of_mem _ hx)).mp hxs
      · intro hxu
        exact Or.inr ((hmem x (List.mem_cons_of_mem _ hx)).mpr hxu)

theorem dedupNew_eq_firstDedup (l seen : List JsString) :
    dedupNew seen l = firstDedup (l.filter (fun x => decide (x ∉ seen))) := by
  induction l generalizing seen with
  | nil => simp [dedupNew, firstDedup]
  | cons w ws ih =>
    simp only [dedupNew, List.filter]
    by_cases hw : w ∈ seen
    · have hd : decide (w ∉ seen) = false := by simp [hw]
      rw [if_pos hw, hd]
      exact ih seen
    · have hd : decide (w ∉ seen) = true := by simp [hw]
      rw [if_neg hw, hd, firstDedup]
      congr 1
      rw [ih (w :: seen), List.filter_filter]
      congr 1
      apply List.filter_congr
      intro x hx
      by_cases hxw : x = w <;> by_cases hxs : x ∈ seen <;>
        simp [List.mem_cons, hxw, hxs]

theorem mem_firstDedup (l : List JsString) (x : JsString) :
    x ∈ firstDedup l ↔ x ∈ l := by
  induction l using firstDedup.induct with
  | case1 => simp [firstDedup]
  | case2 w ws ih =>
    rw [firstDedup]
    simp only [List.mem_cons, ih, List.mem_filter, decide_eq_true_eq]
    by_cases hxw : x = w
    · simp [hxw]
    · simp [hxw]

theorem firstDedup_nodup (l : List JsString) : (firstDedup l).Nodup := by
  induction l using firstDedup.induct with
  | case1 => simp [firstDedup]
  | case2 w ws ih =>
    rw [firstDedup, List.nodup_cons]
    refine ⟨?_, ih⟩
    intro hmem
    rw [mem_firstDedup] at hmem
    have := List.of_mem_filter hmem
    simp at this

theorem overlayTick_noTimers (s : OverlayState) (h1 : s.transcribeTimer = none)
    (h2 : s.lockTimer = none) : overlayTick s = (s, []) := by
  simp [overlayTick, h1, h2]

theorem overlayRunTicks_noTimers (n : Nat) (s : OverlayState)
    (h1 : s.transcribeTimer = none) (h2 : s.lockTimer = none) :
    overlayRunTicks n s = (s, []) := by
  induction n with
  | zero => rfl
  | succ n ih => simp [overlayRunTicks, overlayTick_noTimers s h1 h2, ih]

theorem overlayTick_lockedWait (r : Nat) (h : 2 ≤ r) :
    overlayTick (lockedWaitState r) = (lockedWaitState (r - 1), []) := by
  have hr : ¬ r ≤ 1 := by omega
  simp [overlayTick, lockedWaitState, hr]

theorem overlayTick_lockedWait_one :
    overlayTick (lockedWaitState 1) = (lockedFiredState, [.cancel_locked_recording]) := by
  rfl

theorem overlayRunTicks_lockedWait (r n : Nat) (h1 : 1 ≤ r) (hn : r ≤ n) :
    overlayRunTicks n (lockedWaitState r) =
      (lockedFiredState, [.cancel_locked_recording]) := by
  induction r generalizing n with
  | zero => omega
  | succ r ih =>
    obtain ⟨m, rfl⟩ : ∃ m, n = m + 1 := ⟨n - 1, by omega⟩
    by_cases hr : r = 0
    · subst hr
      simp [overlayRunTicks, overlayTick_lockedWait_one,
        overlayRunTicks_noTimers m lockedFiredState rfl rfl]
    · have h2 : 2 ≤ r + 1 := by omega
      have hrec := ih (n := m) (by omega) (by omega)
      simp [overlayRunTicks, overlayTick_lockedWait _ h2, hrec]

theorem overlayTick_transWait (lk sub : Bool) (r : Nat) (h : 2 ≤ r) :
    overlayTick (transcribingWaitState lk sub r none) =
      (transcribingWaitState lk sub (r - 1) none, []) := by
  have hr : ¬ r ≤ 1 := by omega
  simp [overlayTick, transcribingWaitState, hr]

theorem overlayTick_transWait_fire (lk sub : Bool) (lockRemaining : Option Nat) :
    overlayTick (transcribingWaitState lk sub 1 lockRemaining) =
      (overlayBaseline, [.hide_overlay]) := by
  rfl

theorem overlayTick_lockArmed_decr (r q : Nat) (hr : 2 ≤ r) (hq : 2 ≤ q) :
    overlayTick (transcribingWaitState true false r (some q)) =
      (transcribingWaitState true false (r - 1) (some (q - 1)), []) := by
  have hr1 : ¬ r ≤ 1 := by omega
  have hq1 : ¬ q ≤ 1 := by omega
  simp [overlayTick, transcribingWaitState, hr1, hq1]

theorem overlayTick_lockArmed_fire (r q : Nat) (hr : 2 ≤ r) (hq : q ≤ 1) :
    overlayTick (transcribingWaitState true false r (some q)) =
      (transcribingWaitState true true (r - 1) none, [.cancel_locked_recording]) := by
  have hr1 : ¬ r ≤ 1 := by omega
  simp [overlayTick, transcribingWaitState, hr1, hq, rederiveTimers]

theorem overlayRunTicks_transWait (lk sub : Bool) (r n : Nat) (h1 : 1 ≤ r) (hn : r ≤ n) :
    overlayRunTicks n (transcribingWaitState lk sub r none) =
      (overlayBaseline, [.hide_overlay]) := by
  induction r generalizing n with
  | zero => omega
  | succ r ih =>
    obtain ⟨m, rfl⟩ : ∃ m, n = m + 1 := ⟨n - 1, by omega⟩
    by_cases hr : r = 0
    · subst hr
      simp [overlayRunTicks, overlayTick_transWait_fire,
        overlayRunTicks_noTimers m overlayBaseline rfl rfl]
    · have h2 : 2 ≤ r + 1 := by omega
      have hrec := ih (n := m) (by omega) (by omega)
      simp [overlayRunTicks, overlayTick_transWait _ _ _ h2, hrec]

theorem overlayRunTicks_transFirst (q r n : Nat) (h1 : 1 ≤ r) (hq : r ≤ q) (hn : r ≤ n) :
    overlayRunTicks n (transcribingWaitState true false r (some q)) =
      (overlayBaseline, [.hide_overlay]) := by
  induction r generalizing q n with
  | zero => omega
  | succ r ih =>
    obtain ⟨m, rfl⟩ : ∃ m, n = m + 1 := ⟨n - 1, by omega⟩
    by_cases hr : r = 0
    · subst hr
      simp [overlayRunTicks, overlayTick_transWait_fire,
        overlayRunTicks_noTimers m overlayBaseline rfl rfl]
    · have h2 : 2 ≤ r + 1 := by omega
      have hq2 : 2 ≤ q := by omega
      have hrec := ih (q := q - 1) (n := m) (by omega) (by omega) (by omega)
      simp [overlayRunTicks, overlayTick_lockArmed_decr _ _ h2 hq2, hrec]

theorem overlayRunTicks_lockFirst_base (q r n : Nat) (hr : 2 ≤ r) (hq : q ≤ 1)
    (hn : r ≤ n) :
    overlayRunTicks n (transcribingWaitState true false r (some q)) =
      (overlayBaseline, [.cancel_locked_recording, .hide_overlay]) := by
  obtain ⟨m, rfl⟩ : ∃ m, n = m + 1 := ⟨n - 1, by omega⟩
  simp [overlayRunTicks, overlayTick_lockArmed_fire r q hr hq,
    overlayRunTicks_transWait true true (r - 1) m (by omega) (by omega)]

theorem overlayRunTicks_lockFirst (q r n : Nat) (hr : 2 ≤ r) (hq : q < r) (hn : r ≤ n) :
    overlayRunTicks n (transcribingWaitState true false r (some q)) =
      (overlayBaseline, [.cancel_locked_recording, .hide_overlay]) := by
  induction q generalizing r n with
  | zero => exact overlayRunTicks_lockFirst_base 0 r n hr (by omega) hn
  | succ q ih =>
    by_cases hq0 : q = 0
    · subst hq0
      exact overlayRunTicks_lockFirst_base 1 r n hr (by omega) hn
    · obtain ⟨m, rfl⟩ : ∃ m, n = m + 1 := ⟨n - 1, by omega⟩
      have hr3 : 3 ≤ r := by omega
      have hrec := ih (r := r - 1) (n := m) (by omega) (by omega) (by omega)
      have hdecr := overlayTick_lockArmed_decr r (q + 1) (by omega) (by omega)
      simp [overlayRunTicks, hdecr, hrec]

/-! ## Theorems: the claims -/

/-- C3: encoding a message with the binary frame protocol (4-byte header,
big-endian signed 32-bit sequence number, big-endian unsigned 32-bit payload
length, gzip-compressed payload) and decoding it with the mirror decoder
`parse_response` yields payload bytes equal to the original payload bytes:
`payload_msg` is the abstract `jsonLoads` applied to exactly the original
payload, for every payload byte sequence (in particular for the
concatenation of any sequence of audio frames). -/
theorem claim_C3 (compress : List Nat → List Nat)
    (decompress jsonLoads : List Nat → Option (List Nat)) (seq : Int) (payload : List Nat)
    (hinv : ∀ b, decompress (compress b) = some b)
    (hne : compress payload ≠ [])
    (hseq1 : 0 ≤ seq) (hseq2 : seq < 2 ^ 31)
    (hlen : (compress payload).length < 2 ^ 32) :
    ResponseParser.parse_response decompress jsonLoads (serverFullFrame compress seq payload) =
      { code := 0, event := 0, is_last_package := false, payload_sequence := seq,
        payload_size := (compress payload).length, payload_msg := jsonLoads payload } := by
  have hto : (AsrRequestHeader.default_header.with_message_type
      MessageType.SERVER_FULL_RESPONSE).to_bytes = [17, 145, 17, 0] := rfl
  have hframe : serverFullFrame compress seq payload =
      17 :: 145 :: 17 :: 0 ::
        (int32be seq ++ (uint32be (compress payload).length ++ compress payload)) := by
    rw [serverFullFrame, frameBytes, hto]
    simp [List.cons_append]
  rw [hframe]
  simp only [ResponseParser.parse_response]
  have hg0 : (17 :: 145 :: 17 :: 0 ::
      (int32be seq ++ (uint32be (compress payload).length ++ compress payload))).getD 0 0
      = 17 := rfl
  have hg1 : (17 :: 145 :: 17 :: 0 ::
      (int32be seq ++ (uint32be (compress payload).length ++ compress payload))).getD 1 0
      = 145 := rfl
  have hg2 : (17 :: 145 :: 17 :: 0 ::
      (int32be seq ++ (uint32be (compress payload).length ++ compress payload))).getD 2 0
      = 17 := rfl
  rw [hg0, hg1, hg2]
  have hdrop4 : (17 :: 145 :: 17 :: 0 ::
      (int32be seq ++ (uint32be (compress payload).length ++ compress payload))).drop
      ((17 &&& 15) * 4)
      = int32be seq ++ (uint32be (compress payload).length ++ compress payload) := rfl
  simp only [hdrop4]
  have htake1 : (int32be seq ++ (uint32be (compress payload).length ++ compress payload)).take 4
      = int32be seq := List.take_left' (int32be_length seq)
  have hdrop1 : (int32be seq ++ (uint32be (compress payload).length ++ compress payload)).drop 4
      = uint32be (compress payload).length ++ compress payload := List.drop_left' (int32be_length seq)
  have htake2 : (uint32be (compress payload).length ++ compress payload).take 4
      = uint32be (compress payload).length := List.take_left' (uint32be_length _)
  have hdrop2 : (uint32be (compress payload).length ++ compress payload).drop 4
      = compress payload := List.drop_left' (uint32be_length _)
  simp only [show (145 : Nat) &&& 15 = 1 from rfl, show (145 : Nat) >>> 4 = 9 from rfl,
    show (17 : Nat) >>> 4 = 1 from rfl, show (17 : Nat) &&& 15 = 1 from rfl,
    show (1 : Nat) &&& 1 = 1 from rfl, show (1 : Nat) &&& 2 = 0 from rfl,
    show (1 : Nat) &&& 4 = 0 from rfl]
  norm_num [MessageType.SERVER_FULL_RESPONSE, MessageType.SERVER_ERROR_RESPONSE,
    CompressionType.GZIP, SerializationType.JSON, htake1, hdrop1, htake2, hdrop2]
  rw [decodeInt32be_int32be seq (by omega) hseq2,
    decodeUint32be_uint32be _ hlen]
  simp [hne, hinv]

theorem claim_C3_witness :
    (∀ b : List Nat, (fun l : List Nat => some (l.drop 1)) ((fun l : List Nat => 0 :: l) b) =
      some b) ∧
    ResponseParser.parse_response (fun l => some (l.drop 1)) some
      (serverFullFrame (fun l => 0 :: l) 5 [1, 2, 3]) =
      { code := 0, event := 0, is_last_package := false, payload_sequence := 5,
        payload_size := 4, payload_msg := some [1, 2, 3] } :=
  ⟨fun _ => rfl,
   claim_C3 (fun l => 0 :: l) (fun l => some (l.drop 1)) some 5 [1, 2, 3]
     (fun _ => rfl) (by decide) (by decide) (by decide) (by decide)⟩

/-- C4 counterexample: on a frame whose compression nibble is the
unsupported value 2, `parse_response` returns a plain `AsrResponse`
with `payload_msg = none` and `code = 0` — exactly the silent empty
result the claim rules out, with no typed `ProtocolError` anywhere
(its return type has no error alternative). -/
theorem claim_C4_counterexample :
    unsupportedCompressionFrame.getD 2 0 &&& 0x0f = 2 ∧
    ResponseParser.parse_response (fun _ => none) (fun _ => none) unsupportedCompressionFrame =
      { code := 0, event := 0, is_last_package := false, payload_sequence := 0,
        payload_size := 3, payload_msg := none } := by decide

/-- C4 (amended): on every frame whose compression nibble is not gzip
the decoder never consults decompression (so an unsupported compression
flag cannot crash it): the result is independent of the `decompress`
function, and for every non-`SERVER_ERROR_RESPONSE` message type the
returned `code` is 0 — the raw error code is surfaced only for server
error frames; no typed `ProtocolError` is produced. -/
theorem claim_C4 (d1 d2 jsonLoads : List Nat → Option (List Nat)) (msg : List Nat)
    (hcomp : msg.getD 2 0 &&& 0x0f ≠ CompressionType.GZIP) :
    ResponseParser.parse_response d1 jsonLoads msg =
      ResponseParser.parse_response d2 jsonLoads msg ∧
    (msg.getD 1 0 >>> 4 ≠ MessageType.SERVER_ERROR_RESPONSE →
      (ResponseParser.parse_response d1 jsonLoads msg).code = 0) := by
  constructor
  · simp only [ResponseParser.parse_response]
    simp only [if_neg hcomp]
  · intro hmt
    simp only [ResponseParser.parse_response, if_neg hmt]
    repeat' split
    all_goals rfl

theorem claim_C4_witness :
    (unsupportedCompressionFrame.getD 2 0 &&& 0x0f ≠ CompressionType.GZIP) ∧
    ResponseParser.parse_response (fun _ => none) (fun b => some b) unsupportedCompressionFrame =
      ResponseParser.parse_response (fun _ => some [9]) (fun b => some b)
        unsupportedCompressionFrame ∧
    (ResponseParser.parse_response (fun _ => none) (fun b => some b)
      unsupportedCompressionFrame).code = 0 := by
  refine ⟨by decide, ?_, ?_⟩
  · exact (claim_C4 (fun _ => none) (fun _ => some [9]) (fun b => some b)
      unsupportedCompressionFrame (by decide)).1
  · exact (claim_C4 (fun _ => none) (fun _ => some [9]) (fun b => some b)
      unsupportedCompressionFrame (by decide)).2 (by decide)

/-- C1: on every `recording_started` event the status becomes
`recording` and the error indicator is cleared; on every
`recording_stopped` or `transcribing` event the status becomes
`transcribing` — in both the main-window listeners and the overlay
listeners, after any sequence of prior events (the statement holds for
every pre-state, and explicitly for every event trace). -/
theorem claim_C1 (ctx : ListenerCtx) (s : ListenerState) (o : OverlayState)
    (evs : List TauriEvent) :
    (listenerStep ctx s .recording_started).status = .recording ∧
    (listenerStep ctx s .recording_started).error = none ∧
    (listenerStep ctx s .recording_stopped).status = .transcribing ∧
    (listenerStep ctx s .transcribing).status = .transcribing ∧
    (overlayStepEvent o .recording_started).core.status = .recording ∧
    (overlayStepEvent o .recording_stopped).core.status = .transcribing ∧
    (overlayStepEvent o .transcribing).core.status = .transcribing ∧
    (listenerRun ctx s (evs ++ [.recording_started])).status = .recording ∧
    (listenerRun ctx s (evs ++ [.recording_stopped])).status = .transcribing ∧
    (listenerRun ctx s (evs ++ [.transcribing])).status = .transcribing := by
  refine ⟨rfl, rfl, rfl, rfl, rfl, rfl, rfl, ?_, ?_, ?_⟩ <;>
    simp [listenerRun, List.foldl_append, listenerStep]

/-- C5: the backend state machine (spec-modelled) maps every unrecovered
failure, from any state, to `Idle` plus an `error` event carrying the
message; the UI `error` handler sets the error indicator, returns the
status to the non-recording ready state (`running`), and records a
history record with `success = false` carrying the message. -/
theorem claim_C5 (st : SmState) (ctx : ListenerCtx) (s : ListenerState) (msg : String)
    (hmax : 1 ≤ ctx.maxHistory) :
    smStep st (.failure msg) = (.Idle, [.error msg]) ∧
    (listenerStep ctx s (.error msg)).status = .running ∧
    (listenerStep ctx s (.error msg)).error = some msg ∧
    (listenerStep ctx s (.error msg)).history.head? = some
      { id := ctx.newId, timestamp := ctx.now, originalText := "", polishedText := none,
        presetName := none, mode := none, asrTimeMs := 0, llmTimeMs := none,
        totalTimeMs := 0, success := false, errorMessage := some msg } := by
  refine ⟨by cases st <;> rfl, rfl, rfl, ?_⟩
  simp only [listenerStep]
  obtain ⟨m, hm⟩ : ∃ m, ctx.maxHistory = m + 1 := ⟨ctx.maxHistory - 1, by omega⟩
  rw [hm, List.take_succ_cons, List.head?_cons]

theorem claim_C5_witness :
    1 ≤ sampleCtx.maxHistory ∧
    (listenerStep sampleCtx initialListenerState (.error "boom")).status = .running ∧
    (listenerStep sampleCtx initialListenerState (.error "boom")).history.head? = some
      { id := sampleCtx.newId, timestamp := sampleCtx.now, originalText := "",
        polishedText := none, presetName := none, mode := none, asrTimeMs := 0,
        llmTimeMs := none, totalTimeMs := 0, success := false,
        errorMessage := some "boom" } :=
  ⟨by decide,
   (claim_C5 .Recording sampleCtx initialListenerState "boom" (by decide)).2.1,
   (claim_C5 .Recording sampleCtx initialListenerState "boom" (by decide)).2.2.2⟩

/-- C7 counterexample: the `TranscriptionResult` interface has no
`provider` field, so the `transcription_complete` payload does not
carry the provider that produced the result. -/
theorem claim_C7_counterexample :
    decide ("provider" ∈ transcriptionResultFields) = false := by
  decide

/-- C7 (amended): every `transcription_complete` payload carries the
final text, the per-attempt timing `asr_time_ms` and the total time
(fields of the `TranscriptionResult` interface, displayed as-is by the
handler), but no `provider` field. -/
theorem claim_C7 (ctx : ListenerCtx) (s : ListenerState) (r : TranscriptionResult) :
    "text" ∈ transcriptionResultFields ∧
    "asr_time_ms" ∈ transcriptionResultFields ∧
    "total_time_ms" ∈ transcriptionResultFields ∧
    "provider" ∉ transcriptionResultFields ∧
    (listenerStep ctx s (.transcription_complete r)).transcript = r.text ∧
    (listenerStep ctx s (.transcription_complete r)).asrTime = some r.asr_time_ms ∧
    (listenerStep ctx s (.transcription_complete r)).totalTime = some r.total_time_ms :=
  ⟨by decide, by decide, by decide, by decide, rfl, rfl, rfl⟩

/-- C8: `normalizeAsrConfigWithFallback` returns the input unchanged
with `didFallback = false` whenever the input is valid; and whenever it
reports `didFallback = true`, the returned configuration is valid and
differs from the input only in `selection.active_provider`
(credentials, `language_mode` and the other selection fields are
unchanged). -/
theorem claim_C8 (c : AsrConfig) :
    (isAsrConfigValid c = true →
      normalizeAsrConfigWithFallback c = { config := c, didFallback := false }) ∧
    ((normalizeAsrConfigWithFallback c).didFallback = true →
      isAsrConfigValid (normalizeAsrConfigWithFallback c).config = true ∧
      (normalizeAsrConfigWithFallback c).config.credentials = c.credentials ∧
      (normalizeAsrConfigWithFallback c).config.language_mode = c.language_mode ∧
      (normalizeAsrConfigWithFallback c).config.selection.enable_fallback =
        c.selection.enable_fallback ∧
      (normalizeAsrConfigWithFallback c).config.selection.fallback_provider =
        c.selection.fallback_provider) := by
  constructor
  · intro hv
    simp [normalizeAsrConfigWithFallback, hv]
  · intro hd
    simp only [normalizeAsrConfigWithFallback] at hd ⊢
    split_ifs at hd ⊢ with h1 h2
    all_goals simp_all

theorem claim_C8_witness :
    isAsrConfigValid sampleValidConfig = true ∧
    normalizeAsrConfigWithFallback sampleValidConfig =
      { config := sampleValidConfig, didFallback := false } ∧
    (normalizeAsrConfigWithFallback sampleInvalidConfig).didFallback = true ∧
    isAsrConfigValid (normalizeAsrConfigWithFallback sampleInvalidConfig).config = true :=
  ⟨by decide, (claim_C8 sampleValidConfig).1 (by decide), by decide,
   ((claim_C8 sampleInvalidConfig).2 (by decide)).1⟩

/-- C9: for every dictionary entry whose word contains no bar
character, parsing the storage format round-trips: the parsed entry has
the same word and the same source (`manual` or `auto`). -/
theorem claim_C9 (e : DictionaryEntry) (genId : JsString) (now : Nat)
    (h : '|' ∉ e.word) :
    (parseEntry genId now ((entriesToStorageFormat [e]).headD [])).word = e.word ∧
    (parseEntry genId now ((entriesToStorageFormat [e]).headD [])).source = e.source := by
  cases hs : e.source
  · simp only [entriesToStorageFormat, List.map, hs]
    simp [parseEntry, splitOnChar_not_mem '|' e.word h]
  · simp only [entriesToStorageFormat, List.map, hs]
    have h3 : splitOnChar '|' "auto".toList = ["auto".toList] := by decide
    have hsplit2 : splitOnChar '|' (e.word ++ ['|', 'a', 'u', 't', 'o']) =
        [e.word, ['a', 'u', 't', 'o']] := by
      simpa [h3] using splitOnChar_append '|' e.word "auto".toList h
    simp [parseEntry, hsplit2]

theorem claim_C9_witness :
    ('|' ∉ dupEntryB.word) ∧
    (parseEntry "g".toList 0 ((entriesToStorageFormat [dupEntryB]).headD [])).word =
      dupEntryB.word ∧
    (parseEntry "g".toList 0 ((entriesToStorageFormat [dupEntryB]).headD [])).source =
      dupEntryB.source :=
  ⟨by decide, (claim_C9 dupEntryB "g".toList 0 (by decide)).1,
   (claim_C9 dupEntryB "g".toList 0 (by decide)).2⟩

/-- C10 counterexample: with two entries carrying the same word and no
builtin domains, `buildRuntimeDictionary` returns the user words
unchanged — with the duplicate — so the result is not duplicate-free
as the claim states (`decide` of `Nodup` is `false`). -/
theorem claim_C10_counterexample :
    buildRuntimeDictionary [] [dupEntryA, dupEntryB] [] = [['词'], ['词']] ∧
    decide (buildRuntimeDictionary [] [dupEntryA, dupEntryB] []).Nodup = false := by
  decide

/-- C10 (amended): when the builtin domains contribute at least one
word, `buildRuntimeDictionary` returns a duplicate-free list consisting
of the user words (first occurrences, in order) followed by the
builtin words not already among the user words; when the builtin
domains contribute no words, the result is exactly the user words list
(which keeps any duplicate the entries contain). -/
theorem claim_C10 (snapshot : List BuiltinDictionaryDomain)
    (entries : List DictionaryEntry) (domains : List JsString) :
    (getBuiltinWordsForDomains snapshot domains = [] →
      buildRuntimeDictionary snapshot entries domains = entriesToWords entries) ∧
    (getBuiltinWordsForDomains snapshot domains ≠ [] →
      buildRuntimeDictionary snapshot entries domains =
        firstDedup (entriesToWords entries) ++
          (getBuiltinWordsForDomains snapshot domains).filter
            (fun w => decide (w ∉ entriesToWords entries)) ∧
      (buildRuntimeDictionary snapshot entries domains).Nodup) := by
  constructor
  · intro hb
    simp [buildRuntimeDictionary, hb]
  · intro hb
    have hlen : ¬ ((getBuiltinWordsForDomains snapshot domains).length = 0) := by
      simpa [List.length_eq_zero] using hb
    have hbn : (getBuiltinWordsForDomains snapshot domains).Nodup :=
      getBuiltinWordsForDomains_nodup snapshot domains
    have hmain : buildRuntimeDictionary snapshot entries domains =
        firstDedup (entriesToWords entries) ++
          (getBuiltinWordsForDomains snapshot domains).filter
            (fun w => decide (w ∉ entriesToWords entries)) := by
      simp only [buildRuntimeDictionary]
      rw [if_neg hlen, foldl_pushNew_snd]
      congr 1
      · rw [foldl_pushNew_snd, dedupNew_eq_firstDedup]
        simp
      · apply dedupNew_eq_filter _ hbn
        intro x hx
        rw [foldl_pushNew_fst]
        simp
    refine ⟨hmain, ?_⟩
    rw [hmain]
    refine List.Nodup.append (firstDedup_nodup _) (hbn.filter _) ?_
    intro a ha hb2
    rw [mem_firstDedup] at ha
    have hfil := List.of_mem_filter hb2
    simp only [decide_eq_true_eq] at hfil
    exact hfil ha

theorem claim_C10_witness :
    (getBuiltinWordsForDomains [] [] = [] ∧
     buildRuntimeDictionary [] [dupEntryA, dupEntryB] [] =
       entriesToWords [dupEntryA, dupEntryB]) ∧
    (getBuiltinWordsForDomains sampleSnapshot [['d']] ≠ [] ∧
     buildRuntimeDictionary sampleSnapshot [dupEntryA] [['d']] =
       firstDedup (entriesToWords [dupEntryA]) ++
         (getBuiltinWordsForDomains sampleSnapshot [['d']]).filter
           (fun w => decide (w ∉ entriesToWords [dupEntryA])) ∧
     (buildRuntimeDictionary sampleSnapshot [dupEntryA] [['d']]).Nodup) :=
  ⟨⟨by decide, (claim_C10 [] [dupEntryA, dupEntryB] []).1 (by decide)⟩,
   ⟨by decide, (claim_C10 sampleSnapshot [dupEntryA] [['d']]).2 (by decide)⟩⟩

/-- C2: for every locked session entered by `recording_locked` from a
recording, unlocked state, the 60000 ms auto-cancel effect is armed;
if the session stays locked with no finish/cancel action for any
`n ≥ 60000` milliseconds, `cancel_locked_recording` is invoked exactly
once; and on the resulting `transcription_cancelled` event the overlay
clears the locked state and returns to its idle display (status
`recording`, nothing locked or submitting) while the main window
returns to `running` with no error. -/
theorem claim_C2 (s0 : OverlayState) (ctx : ListenerCtx) (s : ListenerState) (n : Nat)
    (hstatus : s0.core.status = .recording) (hlock : s0.core.isLocked = false)
    (hn : 60000 ≤ n) :
    overlayStepEvent s0 .recording_locked = lockedWaitState 60000 ∧
    (overlayRunTicks n (overlayStepEvent s0 .recording_locked)).2 =
      [OverlayCmd.cancel_locked_recording] ∧
    (overlayStepEvent (overlayRunTicks n (overlayStepEvent s0 .recording_locked)).1
        .transcription_cancelled).core =
      { status := .recording, isLocked := false, isSubmitting := false } ∧
    (listenerStep ctx s .transcription_cancelled).status = .running ∧
    (listenerStep ctx s .transcription_cancelled).error = none := by
  have h1 : overlayStepEvent s0 .recording_locked = lockedWaitState 60000 := by
    obtain ⟨⟨st, lk, sub⟩, tt, lt⟩ := s0
    subst hstatus
    subst hlock
    rfl
  refine ⟨h1, ?_, ?_, rfl, rfl⟩
  · rw [h1, overlayRunTicks_lockedWait 60000 n (by norm_num) hn]
  · rw [h1, overlayRunTicks_lockedWait 60000 n (by norm_num) hn]
    rfl

theorem claim_C2_witness :
    overlayBaseline.core.status = .recording ∧
    overlayBaseline.core.isLocked = false ∧
    (overlayRunTicks 60000 (overlayStepEvent overlayBaseline .recording_locked)).2 =
      [OverlayCmd.cancel_locked_recording] :=
  ⟨rfl, rfl,
   (claim_C2 overlayBaseline sampleCtx initialListenerState 60000 rfl rfl
     (by norm_num)).2.1⟩

/-- C6: whenever the overlay enters `transcribing` — via
`recording_stopped` or `transcribing`, from any state, locked or not —
the 15000 ms watchdog is armed; if no completion, error or cancellation
event arrives for any `n ≥ 15000` milliseconds, the overlay invokes
`hide_overlay` exactly once and resets itself to the non-transcribing
baseline, so it never remains in `transcribing` indefinitely.  The
commands invoked over the wait are exactly `[hide_overlay]`, or
`[cancel_locked_recording, hide_overlay]` when a live locked-mode
auto-cancel timer fires first inside the window. -/
theorem claim_C6 (s0 : OverlayState) (e : TauriEvent) (n : Nat)
    (hstatus : s0.core.status = .recording)
    (he : e = TauriEvent.recording_stopped ∨ e = TauriEvent.transcribing)
    (hn : 15000 ≤ n) :
    (overlayStepEvent s0 e).core.status = .transcribing ∧
    (overlayRunTicks n (overlayStepEvent s0 e)).1 = overlayBaseline ∧
    ((overlayRunTicks n (overlayStepEvent s0 e)).2 = [OverlayCmd.hide_overlay] ∨
     (overlayRunTicks n (overlayStepEvent s0 e)).2 =
       [OverlayCmd.cancel_locked_recording, OverlayCmd.hide_overlay]) ∧
    (overlayRunTicks n (overlayStepEvent s0 e)).2.count OverlayCmd.hide_overlay = 1 := by
  obtain ⟨⟨st, lk, sub⟩, tt, lt⟩ := s0
  subst hstatus
  have hstep : overlayStepEvent ⟨⟨.recording, lk, sub⟩, tt, lt⟩ e =
      transcribingWaitState lk sub 15000 (if lk && !sub then lt else none) := by
    by_cases h : (lk && !sub) = true <;>
      rcases he with rfl | rfl <;>
        simp [overlayStepEvent, overlayEventCore, rederiveTimers,
          transcribingWaitState, h]
  rw [hstep]
  by_cases harm : (lk && !sub) = true
  · have hlk : lk = true := by cases lk <;> simp_all
    have hsub : sub = false := by cases sub <;> simp_all
    subst hlk
    subst hsub
    rw [if_pos harm]
    cases lt with
    | none =>
      rw [overlayRunTicks_transWait true false 15000 n (by norm_num) hn]
      exact ⟨rfl, rfl, Or.inl rfl, by decide⟩
    | some q =>
      by_cases hq : q < 15000
      · rw [overlayRunTicks_lockFirst q 15000 n (by norm_num) hq hn]
        exact ⟨rfl, rfl, Or.inr rfl, by decide⟩
      · rw [overlayRunTicks_transFirst q 15000 n (by norm_num) (by omega) hn]
        exact ⟨rfl, rfl, Or.inl rfl, by decide⟩
  · rw [if_neg harm]
    rw [overlayRunTicks_transWait lk sub 15000 n (by norm_num) hn]
    exact ⟨rfl, rfl, Or.inl rfl, by decide⟩

theorem claim_C6_witness :
    overlayBaseline.core.status = .recording ∧
    ((TauriEvent.transcribing = TauriEvent.recording_stopped) ∨
     (TauriEvent.transcribing = TauriEvent.transcribing)) ∧
    (overlayRunTicks 15000 (overlayStepEvent overlayBaseline .transcribing)).1 =
      overlayBaseline ∧
    (overlayRunTicks 15000 (overlayStepEvent overlayBaseline .transcribing)).2.count
      OverlayCmd.hide_overlay = 1 :=
  ⟨rfl, Or.inr rfl,
   (claim_C6 overlayBaseline .transcribing 15000 rfl (Or.inr rfl) (by norm_num)).2.1,
   (claim_C6 overlayBaseline .transcribing 15000 rfl (Or.inr rfl) (by norm_num)).2.2.2⟩

end PushToTalk
